import Mathlib

/-!
Verification of the data-shaping pipeline of the `Data_reader` repository
(`utils.py`, `ingest.py`, `viz.py`, `app.py`).

Shallow embedding choices, documented once here:

* A pandas `DataFrame` is a `Table`: an ordered list of column names plus an
  ordered list of rows, each row a list of cell values.  The row index is
  positional (`reset_index(drop=True)` is the identity of this model).
* A cell value (`Val`) is a rational number (pandas int64/float64), a
  datetime (`date`, timestamps abstracted as natural numbers), a string, or
  the missing value `na` (NaN/NaT).
* pandas `groupby(..., sort=True)` (the default used throughout the code)
  sorts group keys ascending with the missing-value group last; this total
  order on cells is `vle` below.  String order is lexicographic; a
  cross-dtype order is totalised by a dtype rank (pandas columns are
  homogeneous, so only the within-dtype cases are ever exercised).
* Numeric reductions (`sum`/`mean`/`median`/`max`/`min`) act on the rational
  cells of the value column, skipping missing values the way pandas skips
  NaN.  Reduction of non-numeric cells is abstracted as missing.
* `pd.read_csv` applied to one (encoding, separator) choice is abstracted as
  a function returning `Option Table` in the general fallback theorem; a
  concrete byte-level model (`pdReadCSV`) is used for the ASCII scenario
  input, on which the `utf-8` and `latin-1` decodings agree byte for byte.
-/

namespace DataReader

/-- A cell of a table: number (pandas int/float as `ℚ`), datetime
(timestamps abstracted as `ℕ`), text, or missing (NaN/NaT). -/
inductive Val where
  | num : ℚ → Val
  | date : ℕ → Val
  | str : String → Val
  | na : Val
deriving DecidableEq

/-- Dtype rank used to totalise the cell order across dtypes
(numbers < datetimes < strings < missing; pandas sorts the NaN group last). -/
def Val.rank : Val → ℕ
  | .num _ => 0
  | .date _ => 1
  | .str _ => 2
  | .na => 3

/-- The total order on cells used by pandas' sorted groupby and
`sort_values`: within a dtype the natural order, the missing group last. -/
def vle : Val → Val → Bool
  | .num p, .num q => decide (p ≤ q)
  | .date c, .date d => decide (c ≤ d)
  | .str s, .str t => decide (s ≤ t)
  | a, b => decide (a.rank ≤ b.rank)

/-- Propositional form of `vle`. -/
def vleP (a b : Val) : Prop := vle a b = true

instance : DecidableRel vleP := fun a b => inferInstanceAs (Decidable (vle a b = true))

instance : IsTotal Val vleP where
  total a b := by
    cases a <;> cases b <;> simp [vleP, vle, Val.rank] <;>
      first
        | omega
        | exact le_total _ _

instance : IsTrans Val vleP where
  trans a b c hab hbc := by
    cases a <;> cases b <;> cases c <;>
      simp [vleP, vle, Val.rank] at * <;>
      first
        | omega
        | exact le_trans hab hbc

/-- A pandas DataFrame: ordered column names and ordered rows of cells.
The row index is positional in this model. -/
structure Table where
  names : List String
  rows : List (List Val)
deriving DecidableEq

/-- Column selection `df[c]`: the list of that column's cells in row order
(empty when the label is absent; the code only selects present columns). -/
def colOf (t : Table) (c : String) : List Val :=
  if c ∈ t.names then t.rows.map (fun r => r.getD (t.names.indexOf c) Val.na)
  else []

/-- Row comparison by the cell in position `i`, as used by
`sort_values(column_at_i)`. -/
def rowLeP (i : ℕ) (r₁ r₂ : List Val) : Prop :=
  vleP (r₁.getD i Val.na) (r₂.getD i Val.na)

instance (i : ℕ) : DecidableRel (rowLeP i) :=
  fun r₁ r₂ => inferInstanceAs (Decidable (vleP _ _))

instance (i : ℕ) : IsTotal (List Val) (rowLeP i) where
  total _ _ := IsTotal.total (r := vleP) _ _

instance (i : ℕ) : IsTrans (List Val) (rowLeP i) where
  trans _ _ _ h₁ h₂ := IsTrans.trans (r := vleP) _ _ _ h₁ h₂

/-- `df.sort_values(c)`: stable ascending sort of the rows by the cells of
column `c` (insertion sort is stable, like pandas' stable kind on ties). -/
def sort_values (t : Table) (c : String) : Table :=
  ⟨t.names, List.insertionSort (rowLeP (t.names.indexOf c)) t.rows⟩

/-- Fuelled worker of `encounterDedup` (structural recursion so that the
kernel can evaluate it; the fuel is the input length). -/
def edAux {α : Type} [DecidableEq α] : ℕ → List α → List α
  | 0, _ => []
  | _ + 1, [] => []
  | n + 1, a :: l => a :: edAux n (l.filter (fun b => b ≠ a))

/-- First-encounter deduplication: the distinct elements of `l` in the order
their first occurrences appear. -/
def encounterDedup {α : Type} [DecidableEq α] (l : List α) : List α :=
  edAux l.length l

/-- The group keys produced by `groupby(key, dropna=False, sort=True)`:
the distinct cells of the key column sorted ascending by `vle`
(missing-key group last). -/
def groupKeys (l : List Val) : List Val :=
  List.insertionSort vleP (encounterDedup l)

/-! ### utils.py — aggregation -/

/-- The `how_map` dict of `utils.aggregate` / `utils.time_aggregate`:
Portuguese mode name to pandas reduction name. -/
def how_map : List (String × String) :=
  [("soma", "sum"), ("média", "mean"), ("contagem", "count"),
   ("mediana", "median"), ("máximo", "max"), ("mínimo", "min")]

/-- Ascending sort of rationals (used by the median). -/
def sortedRats (xs : List ℚ) : List ℚ :=
  List.insertionSort (· ≤ ·) xs

/-- A pandas named reduction applied to the non-missing numeric cells of a
group (pandas skips NaN): `none` encodes a NaN result (empty group for
mean/median/max/min; pandas' empty sum is 0). -/
def reduceRats (func : String) (xs : List ℚ) : Option ℚ :=
  if func = "sum" then some xs.sum
  else if func = "mean" then
    if xs = [] then none else some (xs.sum / xs.length)
  else if func = "median" then
    if xs = [] then none
    else
      let s := sortedRats xs
      let n := s.length
      if n % 2 = 1 then some (s.getD (n / 2) 0)
      else some ((s.getD (n / 2 - 1) 0 + s.getD (n / 2) 0) / 2)
  else if func = "max" then
    match xs with
    | [] => none
    | a :: t => some (t.foldl max a)
  else if func = "min" then
    match xs with
    | [] => none
    | a :: t => some (t.foldl min a)
  else some xs.sum

/-- The numeric cell of a `Val`, when it is one. -/
def toRat? : Val → Option ℚ
  | .num q => some q
  | _ => none

/-- `GroupBy[y].agg(func)` on the cells of one group: reduce the numeric
cells skipping missing values; a NaN result is the missing cell. -/
def reduceVal (func : String) (vs : List Val) : Val :=
  match reduceRats func (vs.filterMap toRat?) with
  | some q => .num q
  | none => .na

/-- The rows of `df.groupby(x, dropna=False).size()`: one row per distinct
key cell (keys sorted ascending, missing last), value = number of rows of
the group. -/
def size_rows (l : List Val) : List (List Val) :=
  (groupKeys l).map (fun k => [k, Val.num (l.count k)])

/-- The rows of `df.groupby(x, dropna=False)[y].agg(func)`: one row per
distinct key cell (keys sorted ascending, missing last), value = `func`
reduction of the matching `y` cells. -/
def group_rows (l : List Val) (vy : List Val) (func : String) : List (List Val) :=
  let pairs := l.zip vy
  (groupKeys l).map
    (fun k => [k, reduceVal func ((pairs.filter (fun p => p.1 = k)).map (fun p => p.2))])

/-- `utils.aggregate(df, x, y, how)`: if `y` is `None` or `how` is
`"contagem"`, count rows per distinct `x` cell; otherwise reduce column `y`
per group with `how_map.get(how, "sum")`; columns renamed to `x`/`valor`. -/
def aggregate (df : Table) (x : String) (y : Option String) (how : String) : Table :=
  match y with
  | none => ⟨["x", "valor"], size_rows (colOf df x)⟩
  | some yc =>
    if how = "contagem" then ⟨["x", "valor"], size_rows (colOf df x)⟩
    else
      let func := (how_map.lookup how).getD "sum"
      ⟨["x", "valor"], group_rows (colOf df x) (colOf df yc) func⟩

/-! ### utils.py — datetime detection and time aggregation -/

/-- `pd.api.types.is_datetime64_any_dtype` on a column: in this model a
column is datetime when all its cells are datetime cells. -/
def isDatetimeCol (l : List Val) : Bool :=
  l.all (fun v => match v with | .date _ => true | _ => false)

/-- The coercion `ensure_datetime` performs cell-wise
(`pd.to_datetime(errors="coerce")`): datetime cells survive, everything
else becomes missing (NaT).  String-to-date parsing is abstracted: parsed
date columns are carried as datetime cells. -/
def toDate? : Val → Option ℕ
  | .date d => some d
  | _ => none

/-- The coerced datetime column `ensure_datetime(df[date_col])`. -/
def dateColOf (df : Table) (dc : String) : List (Option ℕ) :=
  (colOf df dc).map toDate?

/-- The bucket ordinals of the rows with a valid (non-NaT) date: the period
index assigned by `resample(freq)` to each timestamp.  `bucket` is the
calendar library's period-ordinal map for the chosen frequency (the
identity for `'D'` over day-numbered timestamps); consecutive calendar
periods have consecutive ordinals. -/
def bucketsOf (bucket : ℕ → ℕ) (sdt : List (Option ℕ)) : List ℕ :=
  (sdt.filterMap id).map bucket

/-- The contiguous list of period ordinals `lo, lo+1, ..., hi` a resample
emits (the full span between the first and last observed period). -/
def bucketRange (lo hi : ℕ) : List ℕ :=
  List.range' lo (hi + 1 - lo)

/-- `tmp.set_index("_dt").resample(freq).size()`: rows with NaT are
dropped; every period of the observed span is emitted, empty ones with
count 0. -/
def size_resample (bucket : ℕ → ℕ) (sdt : List (Option ℕ)) : Table :=
  match bucketsOf bucket sdt with
  | [] => ⟨["x", "valor"], []⟩
  | b0 :: rest =>
    ⟨["x", "valor"],
      (bucketRange (rest.foldl min b0) (rest.foldl max b0)).map
        (fun b => [Val.date b, Val.num ((bucketsOf bucket sdt).count b)])⟩

/-- The (bucket ordinal, `y` cell) pairs of the rows with a valid date,
the content of `tmp.set_index("_dt")[y]` after NaT rows drop out of
resampling. -/
def resample_pairs (bucket : ℕ → ℕ) (sdt : List (Option ℕ)) (vy : List Val) :
    List (ℕ × Val) :=
  (sdt.zip vy).filterMap (fun p => p.1.map (fun d => (bucket d, p.2)))

/-- `tmp.set_index("_dt")[y].resample(freq).agg(func)`: rows with NaT are
dropped; every period of the observed span is emitted, with the reduction
of the period's `y` cells (NaN for an empty mean/median/max/min, 0 for an
empty sum). -/
def agg_resample (bucket : ℕ → ℕ) (sdt : List (Option ℕ)) (vy : List Val)
    (func : String) : Table :=
  match (resample_pairs bucket sdt vy).map (fun p => p.1) with
  | [] => ⟨["x", "valor"], []⟩
  | b0 :: rest =>
    ⟨["x", "valor"],
      (bucketRange (rest.foldl min b0) (rest.foldl max b0)).map
        (fun b =>
          [Val.date b,
           reduceVal func
             (((resample_pairs bucket sdt vy).filter (fun p => p.1 = b)).map
               (fun p => p.2))])⟩

/-- `utils.time_aggregate(df, date_col, y, how, freq)`: coerce the date
column, bucket rows into calendar periods (`bucket` abstracts the
frequency's period-ordinal map), count rows or reduce `y` per period, then
sort ascending by the period column `x`. -/
def time_aggregate (bucket : ℕ → ℕ) (df : Table) (date_col : String)
    (y : Option String) (how : String) : Table :=
  let sdt := dateColOf df date_col
  let grouped :=
    match y with
    | none => size_resample bucket sdt
    | some yc =>
      if how = "contagem" then size_resample bucket sdt
      else agg_resample bucket sdt (colOf df yc) ((how_map.lookup how).getD "sum")
  sort_values grouped "x"

/-! ### utils.py — type inference and basic statistics -/

/-- The columns of a table in order, as (name, cells) pairs. -/
def colsOf (df : Table) : List (String × List Val) :=
  (List.range df.names.length).map
    (fun i => (df.names.getD i "", df.rows.map (fun r => r.getD i Val.na)))

/-- `pd.api.types.is_numeric_dtype` on a column: all cells numeric or
missing (a float64 column holds NaN). -/
def isNumericCol (l : List Val) : Bool :=
  l.all (fun v => match v with | .num _ => true | .na => true | _ => false)

/-- The numeric column names of a table, in column order. -/
def numericCols (df : Table) : List String :=
  ((colsOf df).filter (fun p => isNumericCol p.2)).map (fun p => p.1)

/-- `utils.infer_types`: numeric columns and the remaining (text) columns,
both in column order. -/
def infer_types (df : Table) : List String × List String :=
  let numeric := numericCols df
  (numeric, df.names.filter (fun c => c ∉ numeric))

/-- `str(v)` on a cell, for `astype(str)` (missing renders as `"nan"`). -/
def valToText : Val → String
  | .num q => toString q
  | .date d => toString d
  | .str s => s
  | .na => "nan"

/-- `series.value_counts(dropna=False)`: (value, frequency) pairs sorted by
descending frequency, ties in first-encounter order (stable sort). -/
def value_counts (l : List Val) : List (Val × ℕ) :=
  List.insertionSort (fun a b => b.2 ≤ a.2)
    ((encounterDedup l).map (fun k => (k, l.count k)))

/-- The result record of `utils.basic_stats`.  `memory_mb` (a
machine-dependent deep-memory probe) is outside the model; `describe_num`
is modelled by the list of described numeric columns (`none` when there is
none), its per-column float statistics being abstracted. -/
structure StatsInfo where
  shape : ℕ × ℕ
  nulls_total : ℕ
  duplicates : ℕ
  describe_num : Option (List String)
  top_categories : List (String × List (Val × ℕ))
deriving DecidableEq

/-- `utils.basic_stats`: shape, total null cells, duplicated row count,
numeric describe (absent when no numeric column), and the top-10 value
frequencies of the first 10 text columns (values stringified,
missing counted). -/
def basic_stats (df : Table) : StatsInfo where
  shape := (df.rows.length, df.names.length)
  nulls_total := (df.rows.map (fun r => r.countP (fun v => v = Val.na))).sum
  duplicates := df.rows.length - (encounterDedup df.rows).length
  describe_num :=
    let nc := numericCols df
    if nc = [] then none else some nc
  top_categories :=
    (((colsOf df).filter (fun p => ¬ isNumericCol p.2)).take 10).map
      (fun p => (p.1, (value_counts (p.2.map (fun v => Val.str (valToText v)))).take 10))

/-! ### ingest.py — cleaning and the CSV fallback reader -/

/-- Python `str.strip()` on the characters of a name: drop leading and
trailing whitespace. -/
def trimChars (l : List Char) : List Char :=
  ((l.dropWhile Char.isWhitespace).reverse.dropWhile Char.isWhitespace).reverse

/-- Python `str(c).strip()` on a column name (names are already strings in
this model, so `str` is the identity). -/
def pstrip (s : String) : String :=
  ⟨trimChars s.data⟩

/-- Does one character list start with another (the regex `^Unnamed` test
is `leadMatch "Unnamed".data name.data`)? -/
def leadMatch : List Char → List Char → Bool
  | [], _ => true
  | _ :: _, [] => false
  | a :: as, b :: bs => a = b && leadMatch as bs

/-- Does a (stripped) column name survive `_clean`'s
`~Series(columns).str.match(r"^Unnamed")` mask? -/
def keepName (n : String) : Bool :=
  ! leadMatch "Unnamed".data n.data

/-- Keep the entries of a row whose position the boolean mask keeps
(column subsetting `df.loc[:, mask]` applied to one row). -/
def maskFilter (mask : List Bool) (row : List Val) : List Val :=
  ((mask.zip row).filter (fun p => p.1)).map (fun p => p.2)

/-- The state of `_clean`'s argument after the call: the statement
`df.columns = [str(c).strip() for c in df.columns]` renames the caller's
columns in place; everything after it builds new frames. -/
def clean_arg (t : Table) : Table :=
  ⟨t.names.map pstrip, t.rows⟩

/-- `ingest._clean` with its effect on the argument: strip the column
names (mutating the argument), drop `Unnamed*` columns, reset the index
(identity of the positional model).  First component: the returned table;
second: the argument after the call. -/
def clean_effect (t : Table) : Table × Table :=
  let t1 := clean_arg t
  let mask := t1.names.map keepName
  (⟨t1.names.filter keepName, t1.rows.map (maskFilter mask)⟩, t1)

/-- `ingest._clean`, as a function of its input to its return value. -/
def clean (t : Table) : Table :=
  (clean_effect t).1

/-- The encodings `_read_csv` tries, in order. -/
def csv_encodings : List String := ["utf-8", "latin-1"]

/-- The separators `_read_csv` tries, in order (all single characters). -/
def csv_seps : List Char := [',', ';', '\t', '|']

/-- The (encoding, separator) trial order of `_read_csv`: encodings outer,
separators inner. -/
def csv_combos : List (String × Char) :=
  csv_encodings.flatMap (fun e => csv_seps.map (fun s => (e, s)))

/-- The `ValueError` message `_read_csv` raises when every combination
fails (the spec's `UnreadableFile`). -/
def csvErrMsg : String := "CSV com encoding/separador não detectado."

/-- `ingest._read_csv` over an abstract parse: `p enc sep` is
`pd.read_csv(BytesIO(raw), encoding=enc, sep=sep)`, `none` meaning any
raised exception (decode failure included).  The first parse that
succeeds is cleaned and returned; exhausting all combinations raises. -/
def read_csv_any (p : String → Char → Option Table) : Except String Table :=
  match csv_combos.findSome? (fun c => p c.1 c.2) with
  | some df => .ok (clean df)
  | none => .error csvErrMsg

/-! ### A concrete model of `pd.read_csv` for plain ASCII input
(no quoting, single-character separator), used for the scenario claim. -/

/-- Split a character list on a separator character. -/
def splitOnChar (c : Char) : List Char → List (List Char)
  | [] => [[]]
  | a :: rest =>
    match splitOnChar c rest with
    | [] => [[]]
    | cur :: done => if a = c then [] :: cur :: done else (a :: cur) :: done

/-- Parse an unsigned decimal integer. -/
def digitsToNat? (l : List Char) : Option ℕ :=
  match l with
  | [] => none
  | _ =>
    if l.all Char.isDigit then
      some (l.foldl (fun acc c => acc * 10 + (c.toNat - 48)) 0)
    else none

/-- Parse a CSV cell as an integer (optional leading minus sign), the way
pandas types an all-integer column. -/
def parseIntCell (cl : List Char) : Option ℤ :=
  match cl with
  | [] => none
  | c :: rest =>
    if c = '-' then (digitsToNat? rest).map (fun n => -(n : ℤ))
    else (digitsToNat? cl).map (fun n => (n : ℤ))

/-- One padded raw cell: an empty field is missing (NaN). -/
def rawCell (o : Option (List Char)) : Option (List Char) :=
  match o with
  | some s => if s = [] then none else some s
  | none => none

/-- `pd.read_csv` on ASCII text with a one-character separator: first
non-empty line is the header; a data line with more fields than the header
is a tokenizing error; short lines are padded with missing cells; a column
whose present cells all parse as integers is numeric, otherwise textual. -/
def pdReadCSV (sep : Char) (content : List Char) : Option Table :=
  let lines := (splitOnChar '\n' content).filter (fun l => l ≠ [])
  match lines with
  | [] => none
  | h :: body =>
    let header := (splitOnChar sep h).map (fun cl => (⟨cl⟩ : String))
    let n := header.length
    let raw := body.map (splitOnChar sep)
    if raw.any (fun r => n < r.length) then none
    else
      let padded := raw.map
        (fun r => ((r.map some) ++ List.replicate (n - r.length) none).map rawCell)
      let colNum := fun (j : ℕ) => padded.all
        (fun r =>
          match r.getD j none with
          | some s => (parseIntCell s).isSome
          | none => true)
      let rows := padded.map
        (fun r => (List.range n).map
          (fun j =>
            match r.getD j none with
            | none => Val.na
            | some s =>
              match parseIntCell s with
              | some z => if colNum j then Val.num z else Val.str ⟨s⟩
              | none => Val.str ⟨s⟩))
      some ⟨header, rows⟩

/-- `_read_csv` on concrete ASCII file content.  The `utf-8` and `latin-1`
decodings agree byte for byte on ASCII, so both encodings feed the same
text to the parser (decode failures of non-ASCII input live in the
abstract `p` of `read_csv_any`). -/
def read_any_csv_str (content : String) : Except String Table :=
  read_csv_any (fun _enc sep => pdReadCSV sep content.data)

instance : DecidableEq (Except String Table) := fun x y =>
  match x, y with
  | .error a, .error b =>
    if h : a = b then .isTrue (by rw [h])
    else .isFalse (fun hc => h (by injection hc))
  | .ok a, .ok b =>
    if h : a = b then .isTrue (by rw [h])
    else .isFalse (fun hc => h (by injection hc))
  | .error _, .ok _ => .isFalse (fun hc => Except.noConfusion hc)
  | .ok _, .error _ => .isFalse (fun hc => Except.noConfusion hc)

/-! ### viz.py — chart building -/

/-- A plotly figure as the data `plot_generic` hands to plotly express:
the constructor records which `px.*` call was made and with what table,
axes, color split and title (`holeTenths 4` is the fixed `hole=0.4`). -/
inductive Fig where
  | bar (data : Table) (x : String) (y : Option String) (color : Option String)
      (title : String)
  | line (data : Table) (x : String) (y : Option String) (color : Option String)
      (markers : Bool) (title : String)
  | pie (data : Table) (labels vals : String) (title : String) (holeTenths : ℕ)
  | histogram (data : Table) (x : String) (color : Option String) (nbins : ℕ)
      (title : String)
  | scatter (data : Table) (x y : String) (color : Option String) (title : String)
deriving DecidableEq

/-- The implicit `df.groupby(x, dropna=False)[y].sum().reset_index()` of
the unaggregated bar/line/pie branches (column names kept). -/
def groupbySum (df : Table) (x yc : String) : Table :=
  ⟨[x, yc], group_rows (colOf df x) (colOf df yc) "sum"⟩

/-- `df[x].value_counts(dropna=False).rename_axis(x).reset_index(name="count")`
of the unaggregated pie branch. -/
def countsTable (df : Table) (x : String) : Table :=
  ⟨[x, "count"], (value_counts (colOf df x)).map (fun p => [p.1, Val.num p.2])⟩

/-- `viz.plot_generic`: after a defensive re-sort of aggregated datetime
data, dispatch on the chart kind; the `raise ValueError` sites are the
`.error` results (the spec's `InvalidChartRequest`). -/
def plot_generic (tipo : String) (df0 : Table) (x : String) (y : Option String)
    (color : Option String) (aggregated : Bool) : Except String Fig :=
  let df := if aggregated && df0.names.contains "x" && isDatetimeCol (colOf df0 "x")
            then sort_values df0 "x" else df0
  if tipo = "Barras" then
    if aggregated then .ok (.bar df "x" (some "valor") color "Barras — Agregado")
    else
      match y with
      | none => .ok (.bar df x none color ("Barras — Contagem por " ++ x))
      | some yc =>
        .ok (.bar (groupbySum df x yc) x (some yc) color
          ("Barras — " ++ yc ++ " por " ++ x))
  else if tipo = "Linha" then
    if aggregated then
      .ok (.line df "x" (some "valor") color true "Linha — Agregado")
    else
      match y with
      | none => .error "Para Linha, selecione Y numérico."
      | some yc =>
        .ok (.line (groupbySum df x yc) x (some yc) color true
          ("Linha — " ++ yc ++ " por " ++ x))
  else if tipo = "Pizza" then
    if aggregated then .ok (.pie df "x" "valor" "Pizza — Agregado" 4)
    else
      match y with
      | none => .ok (.pie (countsTable df x) x "count" ("Pizza — dist. " ++ x) 4)
      | some yc =>
        .ok (.pie (groupbySum df x yc) x yc ("Pizza — " ++ yc ++ " por " ++ x) 4)
  else if tipo = "Histograma" then
    .ok (.histogram df x color 30 ("Histograma — " ++ x))
  else if tipo = "Scatter" then
    match y with
    | none => .error "Para Scatter, selecione Y numérico."
    | some yc => .ok (.scatter df x yc color ("Scatter — " ++ yc ++ " vs " ++ x))
  else .error "Tipo de gráfico não suportado."

/-- Does a chart request raise? -/
def isErr : Except String Fig → Bool
  | .error _ => true
  | .ok _ => false

/-! ### Effect on the argument

Each stage paired with the state of its table argument after the call.
Except for `_clean` (whose first statement `df.columns = ...` renames the
caller's columns in place, see `clean_effect`), no statement of any stage
writes into its argument: `aggregate` builds `out` from reads
(`rename(inplace=True)` targets the fresh `out`), `time_aggregate` writes
only into `tmp = df.copy()`, `infer_types`/`basic_stats` only read, and
`plot_generic` rebinds its local name to a new sorted/grouped frame. -/

/-- `infer_types` and its argument after the call. -/
def infer_types_effect (df : Table) : (List String × List String) × Table :=
  (infer_types df, df)

/-- `basic_stats` and its argument after the call. -/
def basic_stats_effect (df : Table) : StatsInfo × Table :=
  (basic_stats df, df)

/-- `aggregate` and its argument after the call. -/
def aggregate_effect (df : Table) (x : String) (y : Option String) (how : String) :
    Table × Table :=
  (aggregate df x y how, df)

/-- `time_aggregate` and its argument after the call. -/
def time_aggregate_effect (bucket : ℕ → ℕ) (df : Table) (date_col : String)
    (y : Option String) (how : String) : Table × Table :=
  (time_aggregate bucket df date_col y how, df)

/-- `plot_generic` and its argument after the call. -/
def plot_generic_effect (tipo : String) (df : Table) (x : String)
    (y : Option String) (color : Option String) (aggregated : Bool) :
    Except String Fig × Table :=
  (plot_generic tipo df x y color aggregated, df)

/-! ### Concrete instances used by scenario, counterexample and witness
theorems -/

/-- The scenario CSV bytes `id;val\n1;10\n2;20\n1;30\n` (plain ASCII). -/
def csvScenario : String := "id;val\n1;10\n2;20\n1;30\n"

/-- The table the semicolon parse of the scenario bytes produces. -/
def semicolonT : Table :=
  ⟨["id", "val"], [[.num 1, .num 10], [.num 2, .num 20], [.num 1, .num 30]]⟩

/-- A one-cell table, parsed by `csvWitP` at the second combination. -/
def csvWitT : Table := ⟨["a"], [[Val.num 1]]⟩

/-- A parse behaviour that fails on `','` and succeeds on `';'`. -/
def csvWitP : String → Char → Option Table :=
  fun _ s => if s = ';' then some csvWitT else none

/-- A key column with a repeated value, for the count-aggregation witness. -/
def aggWitT : Table := ⟨["id"], [[Val.num 1], [Val.num 2], [Val.num 1]]⟩

/-- Keys first encountered in the order 2, 1. -/
def cexT4 : Table := ⟨["k"], [[Val.num 2], [Val.num 1]]⟩

/-- Two dates with an empty calendar day between them. -/
def cexT5 : Table := ⟨["d"], [[Val.date 0], [Val.date 2]]⟩

/-- A table whose column name carries surrounding whitespace. -/
def cexT9 : Table := ⟨[" a "], [[Val.num 1]]⟩

/-- A small table for the unknown-mode witness. -/
def wit10T : Table := ⟨["id", "val", "d"], [[Val.num 1, Val.num 2, Val.date 0]]⟩

/-! ## Supporting lemmas -/

/-- The fuel does not matter once it covers the input length. -/
theorem edAux_eq {α : Type} [DecidableEq α] (n m : ℕ) (l : List α)
    (hn : l.length ≤ n) (hm : l.length ≤ m) : edAux n l = edAux m l := by
  induction n using Nat.strong_induction_on generalizing m l with
  | _ n ih =>
    cases l with
    | nil => cases n <;> cases m <;> rfl
    | cons a l =>
      cases n with
      | zero => simp at hn
      | succ n' =>
        cases m with
        | zero => simp at hm
        | succ m' =>
          simp only [edAux, List.cons.injEq, true_and]
          have hlf := List.length_filter_le (fun b => decide (b ≠ a)) l
          simp only [List.length_cons] at hn hm
          exact ih n' (Nat.lt_succ_self n') m' _ (by omega) (by omega)

/-- The defining equation of `encounterDedup` on a cons cell. -/
theorem encounterDedup_cons {α : Type} [DecidableEq α] (a : α) (l : List α) :
    encounterDedup (a :: l)
      = a :: encounterDedup (l.filter (fun b => b ≠ a)) := by
  unfold encounterDedup
  simp only [List.length_cons, edAux, List.cons.injEq, true_and]
  exact edAux_eq _ _ _ (List.length_filter_le _ _) (le_refl _)

/-- Membership is preserved by first-encounter deduplication. -/
theorem encounterDedup_mem {α : Type} [DecidableEq α] (l : List α) (k : α) :
    k ∈ encounterDedup l ↔ k ∈ l := by
  have H : ∀ (n : ℕ) (l : List α), l.length ≤ n →
      (k ∈ encounterDedup l ↔ k ∈ l) := by
    intro n
    induction n with
    | zero =>
      intro l hl
      rw [List.length_eq_zero.1 (Nat.le_zero.1 hl)]
      simp [encounterDedup, edAux]
    | succ n ih =>
      intro l hl
      cases l with
      | nil => simp [encounterDedup, edAux]
      | cons a l =>
        rw [encounterDedup_cons]
        have hf : (l.filter (fun b => b ≠ a)).length ≤ n := by
          have := List.length_filter_le (fun b => decide (b ≠ a)) l
          simp only [List.length_cons] at hl
          omega
        have ihf := ih (l.filter (fun b => b ≠ a)) hf
        simp only [List.mem_cons, ihf, List.mem_filter]
        by_cases hka : k = a <;> simp [hka]
  exact H l.length l (le_refl _)

/-- First-encounter deduplication yields distinct elements. -/
theorem encounterDedup_nodup {α : Type} [DecidableEq α] (l : List α) :
    (encounterDedup l).Nodup := by
  have H : ∀ (n : ℕ) (l : List α), l.length ≤ n → (encounterDedup l).Nodup := by
    intro n
    induction n with
    | zero =>
      intro l hl
      rw [List.length_eq_zero.1 (Nat.le_zero.1 hl)]
      simp [encounterDedup, edAux]
    | succ n ih =>
      intro l hl
      cases l with
      | nil => simp [encounterDedup, edAux]
      | cons a l =>
        rw [encounterDedup_cons]
        have hf : (l.filter (fun b => b ≠ a)).length ≤ n := by
          have := List.length_filter_le (fun b => decide (b ≠ a)) l
          simp only [List.length_cons] at hl
          omega
        refine List.nodup_cons.2 ⟨?_, ih _ hf⟩
        intro hmem
        have hfm := (encounterDedup_mem _ _).1 hmem
        have := (List.mem_filter.1 hfm).2
        simp at this
  exact H l.length l (le_refl _)

/-- Dropping the occurrences of `a` removes exactly `count a` elements. -/
theorem length_filter_ne_add_count {α : Type} [DecidableEq α] (l : List α) (a : α) :
    (l.filter (fun b => b ≠ a)).length + l.count a = l.length := by
  induction l with
  | nil => simp
  | cons b l ih =>
    by_cases hba : b = a
    · subst hba
      rw [List.filter_cons_of_neg (by simp), List.count_cons_self]
      simp only [List.length_cons]
      omega
    · rw [List.filter_cons_of_pos (by simpa using hba),
        List.count_cons_of_ne (Ne.symm hba)]
      simp only [List.length_cons]
      omega

/-- The per-key counts over the distinct keys sum to the list's length. -/
theorem encounterDedup_count_sum {α : Type} [DecidableEq α] (l : List α) :
    ((encounterDedup l).map (fun k => l.count k)).sum = l.length := by
  have H : ∀ (n : ℕ) (l : List α), l.length ≤ n →
      ((encounterDedup l).map (fun k => l.count k)).sum = l.length := by
    intro n
    induction n with
    | zero =>
      intro l hl
      rw [List.length_eq_zero.1 (Nat.le_zero.1 hl)]
      simp [encounterDedup, edAux]
    | succ n ihn =>
      intro l hl
      cases l with
      | nil => simp [encounterDedup, edAux]
      | cons a l =>
        have hf : (l.filter (fun b => b ≠ a)).length ≤ n := by
          have := List.length_filter_le (fun b => decide (b ≠ a)) l
          simp only [List.length_cons] at hl
          omega
        have ih := ihn (l.filter (fun b => b ≠ a)) hf
        rw [encounterDedup_cons]
        simp only [List.map_cons, List.sum_cons]
        have hmap : (encounterDedup (l.filter (fun b => b ≠ a))).map
              (fun k => (a :: l).count k)
            = (encounterDedup (l.filter (fun b => b ≠ a))).map
              (fun k => (l.filter (fun b => b ≠ a)).count k) := by
          apply List.map_congr_left
          intro k hk
          have hkf := (encounterDedup_mem _ _).1 hk
          have hka : k ≠ a := by
            have := (List.mem_filter.1 hkf).2
            simpa using this
          rw [List.count_cons_of_ne hka]
          rw [List.count_filter (by simpa using hka)]
        rw [hmap, ih]
        have h1 := length_filter_ne_add_count l a
        have h2 : (a :: l).count a = l.count a + 1 := List.count_cons_self a l
        simp only [List.length_cons]
        omega
  exact H l.length l (le_refl _)

/-- The sorted group keys are a permutation of the first-encounter keys. -/
theorem groupKeys_perm (l : List Val) : List.Perm (groupKeys l) (encounterDedup l) :=
  List.perm_insertionSort _ _

/-- Group keys are distinct. -/
theorem groupKeys_nodup (l : List Val) : (groupKeys l).Nodup :=
  ((groupKeys_perm l).nodup_iff).2 (encounterDedup_nodup l)

/-- The group keys are exactly the values occurring in the key column. -/
theorem groupKeys_mem (l : List Val) (k : Val) : k ∈ groupKeys l ↔ k ∈ l :=
  ((groupKeys_perm l).mem_iff).trans (encounterDedup_mem l k)

/-- Group keys come out sorted ascending (missing last). -/
theorem groupKeys_sorted (l : List Val) : (groupKeys l).Sorted vleP :=
  List.sorted_insertionSort _ _

/-- The group sizes sum to the total number of rows. -/
theorem groupKeys_count_sum (l : List Val) :
    ((groupKeys l).map (fun k => l.count k)).sum = l.length := by
  rw [List.Perm.sum_eq ((groupKeys_perm l).map (fun k => l.count k)),
    encounterDedup_count_sum]

/-- Dropping a satisfied sequence twice is dropping it once. -/
theorem dropWhile_idem {α : Type} (p : α → Bool) (l : List α) :
    (l.dropWhile p).dropWhile p = l.dropWhile p := by
  induction l with
  | nil => simp
  | cons a l ih =>
    by_cases h : p a
    · simp [List.dropWhile_cons, h, ih]
    · simp [List.dropWhile_cons, h]

/-- `dropWhile` removes an initial segment. -/
theorem dropWhile_expose {α : Type} (p : α → Bool) (l : List α) :
    ∃ s, s ++ l.dropWhile p = l := by
  induction l with
  | nil => exact ⟨[], rfl⟩
  | cons a l ih =>
    by_cases h : p a
    · obtain ⟨s, hs⟩ := ih
      exact ⟨a :: s, by simp [List.dropWhile_cons, h, hs]⟩
    · exact ⟨[], by simp [List.dropWhile_cons, h]⟩

/-- A left portion of a `dropWhile`-stable list is itself stable. -/
theorem dropWhile_eq_self_of_append {α : Type} (p : α → Bool) (t s u : List α)
    (hu : t ++ s = u) (h : u.dropWhile p = u) : t.dropWhile p = t := by
  cases t with
  | nil => simp
  | cons a t' =>
    subst hu
    by_cases hp : p a
    · exfalso
      rw [List.cons_append, List.dropWhile_cons, if_pos hp] at h
      obtain ⟨w, hw⟩ := dropWhile_expose p (t' ++ s)
      have hlen := congrArg List.length hw
      have hlen2 := congrArg List.length h
      simp only [List.length_append, List.length_cons] at hlen hlen2
      omega
    · simp [List.dropWhile_cons, hp]

/-- Python's `strip` is idempotent on character lists. -/
theorem trimChars_idem (l : List Char) : trimChars (trimChars l) = trimChars l := by
  unfold trimChars
  set p := Char.isWhitespace with hp
  set u := l.dropWhile p with hu
  set d := u.reverse.dropWhile p with hd
  have hdu : u.dropWhile p = u := dropWhile_idem p l
  obtain ⟨w, hw⟩ := dropWhile_expose p u.reverse
  have hsplit : d.reverse ++ w.reverse = u := by
    have h2 := congrArg List.reverse hw
    simpa [List.reverse_append] using h2
  have ht : d.reverse.dropWhile p = d.reverse :=
    dropWhile_eq_self_of_append p d.reverse w.reverse u hsplit hdu
  rw [ht, List.reverse_reverse, hd, dropWhile_idem]

/-- Python's `strip` is idempotent. -/
theorem pstrip_idem (s : String) : pstrip (pstrip s) = pstrip s :=
  congrArg String.mk (trimChars_idem s.data)

/-- A masked row is no longer than the number of kept positions. -/
theorem maskFilter_length_le (mask : List Bool) (row : List Val) :
    (maskFilter mask row).length ≤ mask.countP id := by
  induction mask generalizing row with
  | nil => simp [maskFilter]
  | cons b m ih =>
    cases row with
    | nil => simp [maskFilter]
    | cons v r =>
      by_cases hb : b = true
      · subst hb
        simp only [maskFilter, List.zip_cons_cons, List.filter_cons, List.countP_cons,
          List.length_map]
        simp
        have := ih r
        simp only [maskFilter, List.length_map] at this
        omega
      · have hb' : b = false := by cases b <;> simp_all
        subst hb'
        simp only [maskFilter, List.zip_cons_cons, List.filter_cons, List.countP_cons]
        simp only [id]
        have := ih r
        simp only [maskFilter] at this
        simpa using this

/-- Filtering by an all-true mask of length `m` is `take m`. -/
theorem maskFilter_trues (m : ℕ) (row : List Val) :
    maskFilter (List.replicate m true) row = row.take m := by
  induction m generalizing row with
  | zero => simp [maskFilter]
  | succ n ih =>
    cases row with
    | nil => simp [maskFilter]
    | cons v r =>
      simp only [maskFilter, List.replicate_succ, List.zip_cons_cons,
        List.filter_cons, if_pos rfl, List.map_cons, List.take_succ_cons]
      have := ih r
      simp only [maskFilter] at this
      simp [this]

/-- Evaluation lemma for `_clean`. -/
theorem clean_eval (t : Table) :
    clean t = ⟨(t.names.map pstrip).filter keepName,
      t.rows.map (maskFilter ((t.names.map pstrip).map keepName))⟩ := rfl

/-- A size resample always has the output header `x`/`valor`. -/
theorem size_resample_names (bucket : ℕ → ℕ) (sdt : List (Option ℕ)) :
    (size_resample bucket sdt).names = ["x", "valor"] := by
  unfold size_resample
  split <;> rfl

/-- An agg resample always has the output header `x`/`valor`. -/
theorem agg_resample_names (bucket : ℕ → ℕ) (sdt : List (Option ℕ))
    (vy : List Val) (func : String) :
    (agg_resample bucket sdt vy func).names = ["x", "valor"] := by
  unfold agg_resample
  split <;> rfl

/-- `sort_values` permutes the rows. -/
theorem sort_values_rows_perm (t : Table) (c : String) :
    List.Perm (sort_values t c).rows t.rows :=
  List.perm_insertionSort _ _

/-- After `sort_values("x")` on an `x`/`valor` table, the first cells of
the rows are ascending. -/
theorem sort_values_sorted_head (t : Table) (ht : t.names = ["x", "valor"]) :
    ((sort_values t "x").rows.map (fun r => r.getD 0 Val.na)).Sorted vleP := by
  unfold sort_values
  rw [ht]
  have hidx : (["x", "valor"] : List String).indexOf "x" = 0 := rfl
  rw [hidx]
  have hs : (List.insertionSort (rowLeP 0) t.rows).Sorted (rowLeP 0) :=
    List.sorted_insertionSort _ _
  rw [List.Sorted, List.pairwise_map]
  exact hs

/-! ## Claims -/

/-- C8: `clean` is total (it is a plain function of the whole table space,
no partial operation occurs in its translation) and idempotent:
`clean(clean(T)) == clean(T)` for every table. -/
theorem clean_total_idempotent (t : Table) : clean (clean t) = clean t := by
  rw [clean_eval t, clean_eval]
  dsimp only
  set ns := t.names.map pstrip with hns
  set names1 := ns.filter keepName with hn1
  set mask := ns.map keepName with hm
  set rows1 := t.rows.map (maskFilter mask) with hr1
  have hstrip1 : names1.map pstrip = names1 := by
    have hmem : ∀ n ∈ names1, pstrip n = n := by
      intro n hn
      have hn' : n ∈ ns := List.mem_of_mem_filter hn
      rw [hns] at hn'
      obtain ⟨o, _, rfl⟩ := List.mem_map.1 hn'
      exact pstrip_idem o
    calc names1.map pstrip = names1.map id := List.map_congr_left hmem
    _ = names1 := List.map_id _
  have hkeep1 : ∀ n ∈ names1, keepName n = true := by
    intro n hn
    rw [hn1] at hn
    exact List.of_mem_filter hn
  have hfilter1 : names1.filter keepName = names1 := List.filter_eq_self.2 hkeep1
  have hmask2 : names1.map keepName = List.replicate names1.length true := by
    rw [List.eq_replicate_iff]
    refine ⟨List.length_map _ _, ?_⟩
    intro b hb
    obtain ⟨n, hn, rfl⟩ := List.mem_map.1 hb
    exact hkeep1 n hn
  have hlen : names1.length = mask.countP id := by
    have h1 : names1.length = ns.countP keepName := by
      rw [hn1, ← List.countP_eq_length_filter]
    have h2 : mask.countP id = ns.countP keepName := by
      rw [hm, List.countP_map]
      rfl
    rw [h1, h2]
  have hrows : rows1.map (maskFilter (names1.map keepName)) = rows1 := by
    rw [hmask2]
    have hmem : ∀ r ∈ rows1, maskFilter (List.replicate names1.length true) r = r := by
      intro r hr
      rw [maskFilter_trues]
      apply List.take_of_length_le
      rw [hr1] at hr
      obtain ⟨r0, _, rfl⟩ := List.mem_map.1 hr
      calc (maskFilter mask r0).length ≤ mask.countP id := maskFilter_length_le mask r0
      _ = names1.length := hlen.symm
    calc rows1.map _ = rows1.map id := List.map_congr_left hmem
    _ = rows1 := List.map_id _
  rw [hstrip1, hfilter1, hrows]

/-- C9 counterexample: `_clean` does not leave its argument unchanged:
its first statement strips the argument's column names in place, so on a
table whose column is named `" a "` the argument differs after the call. -/
theorem clean_mutates_argument : (clean_effect cexT9).2 ≠ cexT9 := by decide

/-- C9 (amended): every stage except `clean` leaves its table argument
exactly unchanged (their translations read the argument and build new
frames only); `clean` leaves the argument's cell values and row order
unchanged but replaces its column names by their stripped (string-coerced)
forms in place. -/
theorem stage_effects (df t : Table) (x date_col tipo : String)
    (y color : Option String) (how : String) (aggregated : Bool)
    (bucket : ℕ → ℕ) :
    (infer_types_effect df).2 = df ∧
    (basic_stats_effect df).2 = df ∧
    (aggregate_effect df x y how).2 = df ∧
    (time_aggregate_effect bucket df date_col y how).2 = df ∧
    (plot_generic_effect tipo df x y color aggregated).2 = df ∧
    (clean_effect t).2.names = t.names.map pstrip ∧
    (clean_effect t).2.rows = t.rows :=
  ⟨rfl, rfl, rfl, rfl, rfl, rfl, rfl⟩

/-- Helper: `findSome?` returns the first success. -/
theorem findSome?_first {α β : Type} (f : α → Option β) (pre : List α) (c : α)
    (post : List α) (b : β) (hpre : ∀ a ∈ pre, f a = none) (hc : f c = some b) :
    ((pre ++ c :: post).findSome? f) = some b := by
  induction pre with
  | nil => simp [List.findSome?_cons, hc]
  | cons a pre ih =>
    have ha := hpre a (by simp)
    rw [List.cons_append, List.findSome?_cons, ha]
    exact ih (fun a' h => hpre a' (by simp [h]))

/-- C1: `_read_csv` tries the 8 (encoding, separator) combinations in the
fixed order `utf-8` then `latin-1`, each crossed with `','`, `';'`, tab,
`'|'`; the first combination whose parse raises no error wins (its table
is cleaned and returned with no shape validation), and the
`UnreadableFile` error is raised if and only if all 8 combinations fail. -/
theorem read_csv_fallback (p : String → Char → Option Table) :
    csv_combos = [("utf-8", ','), ("utf-8", ';'), ("utf-8", '\t'), ("utf-8", '|'),
      ("latin-1", ','), ("latin-1", ';'), ("latin-1", '\t'), ("latin-1", '|')] ∧
    (read_csv_any p = .error csvErrMsg ↔ ∀ c ∈ csv_combos, p c.1 c.2 = none) ∧
    (∀ pre c post t, csv_combos = pre ++ c :: post →
      (∀ c' ∈ pre, p c'.1 c'.2 = none) → p c.1 c.2 = some t →
      read_csv_any p = .ok (clean t)) := by
  refine ⟨rfl, ?_, ?_⟩
  · unfold read_csv_any
    constructor
    · intro h
      rcases hfs : csv_combos.findSome? (fun c => p c.1 c.2) with _ | df
      · exact List.findSome?_eq_none_iff.1 hfs
      · rw [hfs] at h
        simp at h
    · intro h
      rw [List.findSome?_eq_none_iff.2 h]
  · intro pre c post t hsplit hpre hc
    unfold read_csv_any
    rw [hsplit, findSome?_first (fun c => p c.1 c.2) pre c post t hpre hc]

/-- C1 witness: a parse that fails at `("utf-8", ',')` and succeeds at
`("utf-8", ';')` makes `_read_csv` return that second parse, cleaned. -/
theorem read_csv_fallback_witness :
    read_csv_any csvWitP = .ok (clean csvWitT) :=
  (read_csv_fallback csvWitP).2.2 [("utf-8", ',')] ("utf-8", ';')
    [("utf-8", '\t'), ("utf-8", '|'), ("latin-1", ','), ("latin-1", ';'),
      ("latin-1", '\t'), ("latin-1", '|')]
    csvWitT (by decide) (by decide) (by decide)

/-- C2: with the value column absent or mode `"contagem"`, `aggregate`
returns one row per distinct key cell (missing keys forming their own
group) whose `valor` is the number of input rows with that key, columns
renamed to `x`/`valor`; the group counts sum to the input's row count. -/
theorem aggregate_count (df : Table) (x : String) (y : Option String)
    (how : String) (hx : x ∈ df.names) (hc : y = none ∨ how = "contagem") :
    aggregate df x y how =
      ⟨["x", "valor"],
        (groupKeys (colOf df x)).map
          (fun k => [k, Val.num ((colOf df x).count k)])⟩ ∧
    (groupKeys (colOf df x)).Nodup ∧
    (∀ k, k ∈ groupKeys (colOf df x) ↔ k ∈ colOf df x) ∧
    ((groupKeys (colOf df x)).map (fun k => (colOf df x).count k)).sum
      = df.rows.length := by
  refine ⟨?_, groupKeys_nodup _, fun k => groupKeys_mem _ _, ?_⟩
  · rcases hc with rfl | hcont
    · rfl
    · cases y with
      | none => rfl
      | some yc => simp [aggregate, hcont, size_rows]
  · rw [groupKeys_count_sum]
    unfold colOf
    rw [if_pos hx, List.length_map]

/-- C2 witness: on key column `[1, 2, 1]` the group counts sum to 3. -/
theorem aggregate_count_witness :
    ((groupKeys (colOf aggWitT "id")).map
        (fun k => (colOf aggWitT "id").count k)).sum = aggWitT.rows.length :=
  (aggregate_count aggWitT "id" none "contagem" (by decide) (Or.inl rfl)).2.2.2

/-- C3: for every input table, date column, mode and frequency (every
period-ordinal map `bucket`), the result of `time_aggregate` is sorted
ascending by the period-start column `x` (the first cell of each row) —
the final `sort_values("x")` guarantees it.  Quantifying over every table
covers every ordering of a given table's rows. -/
theorem time_aggregate_sorted (bucket : ℕ → ℕ) (df : Table) (date_col : String)
    (y : Option String) (how : String) :
    (time_aggregate bucket df date_col y how).names = ["x", "valor"] ∧
    ((time_aggregate bucket df date_col y how).rows.map
        (fun r => r.getD 0 Val.na)).Sorted vleP := by
  have hnames : ∀ T : Table, T.names = ["x", "valor"] →
      (sort_values T "x").names = ["x", "valor"] := by
    intro T hT
    unfold sort_values
    exact hT
  have hg : (match y with
      | none => size_resample bucket (dateColOf df date_col)
      | some yc =>
        if how = "contagem" then size_resample bucket (dateColOf df date_col)
        else agg_resample bucket (dateColOf df date_col) (colOf df yc)
          ((how_map.lookup how).getD "sum")).names = ["x", "valor"] := by
    cases y with
    | none => exact size_resample_names _ _
    | some yc =>
      by_cases h : how = "contagem"
      · simp only [h, if_pos rfl]
        exact size_resample_names _ _
      · simp only [if_neg h]
        exact agg_resample_names _ _ _ _
  constructor
  · exact hnames _ hg
  · exact sort_values_sorted_head _ hg

/-- C4 counterexample: with keys first encountered in the order 2, 1, the
output keys come out 1, 2 (pandas `groupby` sorts with `sort=True` by
default), not in encounter order. -/
theorem aggregate_not_encounter_order :
    ((aggregate cexT4 "k" none "contagem").rows.map (fun r => r.getD 0 Val.na))
        = [Val.num 1, Val.num 2] ∧
    encounterDedup (colOf cexT4 "k") = [Val.num 2, Val.num 1] := by decide

/-- C4 (amended): for every table, key column, value column and mode, the
key order of `aggregate`'s output is ascending by key value with the
missing-key group last (the `groupby(sort=True)` default) — deterministic
under input row reordering, but not the first-encounter order. -/
theorem aggregate_keys_sorted (df : Table) (x : String) (y : Option String)
    (how : String) :
    ((aggregate df x y how).rows.map (fun r => r.getD 0 Val.na)).Sorted vleP ∧
    ((aggregate df x y how).rows.map (fun r => r.getD 0 Val.na)).Nodup := by
  have key : (aggregate df x y how).rows.map (fun r => r.getD 0 Val.na)
      = groupKeys (colOf df x) := by
    have hsize : (size_rows (colOf df x)).map (fun r => r.getD 0 Val.na)
        = groupKeys (colOf df x) := by
      unfold size_rows
      rw [List.map_map]
      exact List.map_id _
    have hgrp : ∀ vy func, (group_rows (colOf df x) vy func).map
        (fun r => r.getD 0 Val.na) = groupKeys (colOf df x) := by
      intro vy func
      unfold group_rows
      rw [List.map_map]
      exact List.map_id _
    rcases y with _ | yc
    · exact hsize
    · by_cases h : how = "contagem"
      · simp only [aggregate, h, if_pos rfl]
        exact hsize
      · simp only [aggregate, if_neg h]
        exact hgrp _ _
  rw [key]
  exact ⟨groupKeys_sorted _, groupKeys_nodup _⟩

/-- C5 counterexample: dates on days 0 and 2 aggregated by count emit a
row for day 1, a period containing zero input rows, with `valor` 0 —
`resample` zero-fills the span instead of omitting empty buckets. -/
theorem time_aggregate_emits_empty_bucket :
    (time_aggregate id cexT5 "d" none "contagem").rows
        = [[Val.date 0, Val.num 1], [Val.date 1, Val.num 0],
           [Val.date 2, Val.num 1]] ∧
    bucketsOf id (dateColOf cexT5 "d") = [0, 2] := by decide

/-- C5 (amended): `time_aggregate` emits every calendar period between the
first and the last occupied bucket, an empty one carrying count 0 (count
branch, shown here; value modes carry the reduction of an empty group)
rather than being omitted; periods outside the observed span are absent. -/
theorem time_aggregate_zero_fills (bucket : ℕ → ℕ) (df : Table)
    (date_col : String) (how : String) (b b0 : ℕ) (rest : List ℕ)
    (hbs : bucketsOf bucket (dateColOf df date_col) = b0 :: rest)
    (hlo : rest.foldl min b0 ≤ b) (hhi : b ≤ rest.foldl max b0) :
    [Val.date b, Val.num ((bucketsOf bucket (dateColOf df date_col)).count b)]
      ∈ (time_aggregate bucket df date_col none how).rows := by
  have h1 : time_aggregate bucket df date_col none how
      = sort_values (size_resample bucket (dateColOf df date_col)) "x" := rfl
  rw [h1]
  rw [List.Perm.mem_iff (sort_values_rows_perm _ _)]
  unfold size_resample
  rw [hbs]
  simp only [hbs]
  refine List.mem_map.2 ⟨b, ?_, rfl⟩
  unfold bucketRange
  rw [List.mem_range'_1]
  omega

/-- C5 witness: the empty day 1 between days 0 and 2 is emitted with
count 0. -/
theorem time_aggregate_zero_fills_witness :
    [Val.date 1, Val.num ((bucketsOf id (dateColOf cexT5 "d")).count 1)]
      ∈ (time_aggregate id cexT5 "d" none "soma").rows ∧
    (bucketsOf id (dateColOf cexT5 "d")).count 1 = 0 :=
  ⟨time_aggregate_zero_fills id cexT5 "d" "soma" 1 0 [2] (by decide) (by decide)
      (by decide),
    by decide⟩

/-- C10: for any mode string outside the six recognised names, `aggregate`
and `time_aggregate` with a value column present do not fail: `how_map.get`
falls back to `"sum"`, so they behave exactly as mode `"soma"` (both
translations are total functions, mirroring that no exception is raised). -/
theorem unknown_mode_sum (df : Table) (x yc date_col : String) (how : String)
    (bucket : ℕ → ℕ)
    (h : how ∉ ["soma", "média", "contagem", "mediana", "máximo", "mínimo"]) :
    aggregate df x (some yc) how = aggregate df x (some yc) "soma" ∧
    time_aggregate bucket df date_col (some yc) how
      = time_aggregate bucket df date_col (some yc) "soma" := by
  simp only [List.mem_cons, not_or] at h
  obtain ⟨h1, h2, h3, h4, h5, h6, -⟩ := h
  have e : ∀ s : String, how ≠ s → (how == s) = false := fun s hs =>
    beq_eq_false_iff_ne.2 hs
  constructor
  · simp [aggregate, h3, how_map, List.lookup, e _ h1, e _ h2, e _ h3, e _ h4,
      e _ h5, e _ h6]
  · simp [time_aggregate, h3, how_map, List.lookup, e _ h1, e _ h2, e _ h3,
      e _ h4, e _ h5, e _ h6]

/-- C10 witness: the unrecognised mode `"avg"` aggregates like `"soma"`. -/
theorem unknown_mode_sum_witness :
    aggregate wit10T "id" (some "val") "avg"
        = aggregate wit10T "id" (some "val") "soma" ∧
    time_aggregate id wit10T "d" (some "val") "avg"
        = time_aggregate id wit10T "d" (some "val") "soma" :=
  unknown_mode_sum wit10T "id" "val" "d" "avg" id (by decide)

/-- C7: `plot_generic` raises `InvalidChartRequest` (its `ValueError`)
exactly when a Scatter request lacks `y`, a non-aggregated Line request
lacks `y`, or the kind is outside the five known kinds — and for no other
combination of kind and axes. -/
theorem plot_generic_invalid_iff (tipo : String) (df : Table) (x : String)
    (y color : Option String) (aggregated : Bool) :
    isErr (plot_generic tipo df x y color aggregated) = true ↔
      (tipo = "Scatter" ∧ y = none) ∨
      (tipo = "Linha" ∧ aggregated = false ∧ y = none) ∨
      tipo ∉ (["Barras", "Linha", "Pizza", "Histograma", "Scatter"] :
        List String) := by
  cases y <;> cases aggregated <;>
    by_cases h1 : tipo = "Barras" <;>
    by_cases h2 : tipo = "Linha" <;>
    by_cases h3 : tipo = "Pizza" <;>
    by_cases h4 : tipo = "Histograma" <;>
    by_cases h5 : tipo = "Scatter" <;>
      simp_all [plot_generic, isErr]

/-- C6 counterexample: on the scenario bytes `id;val\n1;10\n2;20\n1;30\n`
the first combination `utf-8` + `','` already parses without error, so the
reader returns one giant text column of 3 rows — not the semicolon parse
with 2 columns the claim asserts. -/
theorem csv_scenario_comma_wins :
    read_any_csv_str csvScenario
      = .ok ⟨["id;val"], [[Val.str "1;10"], [Val.str "2;20"], [Val.str "1;30"]]⟩ := by
  rfl

/-- C6 (amended): reading the scenario bytes succeeds with the first
combination `utf-8` + `','` (no shape validation), yielding 1 column and
3 rows; the `';'` parse of the same bytes yields the 2-column, 3-row table
`semicolonT`, and `aggregate` of that table (cleaned, as the reader would
return it) with key `id`, value `val`, mode `soma` yields exactly the rows
[(1, 40), (2, 20)] — sorted key order, which here coincides with
encounter order. -/
theorem csv_scenario_amended :
    read_any_csv_str csvScenario
      = .ok ⟨["id;val"], [[Val.str "1;10"], [Val.str "2;20"], [Val.str "1;30"]]⟩ ∧
    pdReadCSV ';' csvScenario.data = some semicolonT ∧
    (semicolonT.names.length = 2 ∧ semicolonT.rows.length = 3) ∧
    aggregate (clean semicolonT) "id" (some "val") "soma"
      = ⟨["x", "valor"], [[Val.num 1, Val.num 40], [Val.num 2, Val.num 20]]⟩ := by
  refine ⟨by rfl, by rfl, by decide, ?_⟩
  have hclean : clean semicolonT = semicolonT := by decide
  rw [hclean]
  have hstep : aggregate semicolonT "id" (some "val") "soma"
      = ⟨["x", "valor"], group_rows (colOf semicolonT "id") (colOf semicolonT "val")
          ((how_map.lookup "soma").getD "sum")⟩ := by
    simp [aggregate]
  rw [hstep]
  have hcol : colOf semicolonT "id" = [Val.num 1, Val.num 2, Val.num 1] := by decide
  have hcoly : colOf semicolonT "val" = [Val.num 10, Val.num 20, Val.num 30] := by
    decide
  have hfunc : (how_map.lookup "soma").getD "sum" = "sum" := rfl
  rw [hcol, hcoly, hfunc]
  have hkeys : groupKeys [Val.num 1, Val.num 2, Val.num 1]
      = [Val.num 1, Val.num 2] := by decide
  simp only [group_rows]
  rw [hkeys]
  simp only [List.map_cons, List.map_nil]
  have hf1 : (([Val.num 1, Val.num 2, Val.num 1].zip
      [Val.num 10, Val.num 20, Val.num 30]).filter (fun p => p.1 = Val.num 1)).map
      (fun p => p.2) = [Val.num 10, Val.num 30] := by decide
  have hf2 : (([Val.num 1, Val.num 2, Val.num 1].zip
      [Val.num 10, Val.num 20, Val.num 30]).filter (fun p => p.1 = Val.num 2)).map
      (fun p => p.2) = [Val.num 20] := by decide
  rw [hf1, hf2]
  have hr1 : reduceVal "sum" [Val.num 10, Val.num 30] = Val.num 40 := by
    simp [reduceVal, reduceRats, toRat?]
    norm_num
  have hr2 : reduceVal "sum" [Val.num 20] = Val.num 20 := by
    simp [reduceVal, reduceRats, toRat?]
  rw [hr1, hr2]

end DataReader



